import Mathlib

/-
Verification development for the InvoiceExtraction service
(`ocr_processor.py`, `invoice_extractor.py`, `blueprints/api_v1.py`).

The Python source is shallowly embedded: the Redis task store becomes an
explicit `Store` value threaded through each endpoint, background workers
become explicit lists of atomic store operations (so that intermediate
states visible to concurrent readers can be examined), and the external
collaborators (PaddleOCR engine, Azure extraction backend, Celery job
queue) become function parameters.  Machine-level concerns (timestamps,
rate limiting, JWT mechanics) are outside every claim and are omitted.
-/

set_option maxHeartbeats 1000000

-- ===========================================================================
-- Path utilities (models of os.path.basename / os.path.splitext / os.path.join)
-- ===========================================================================

/-- Model of `os.path.join(dir, name)` for a directory without a trailing
separator, as used throughout the source. -/
def joinPath (dir name : String) : String := dir ++ "/" ++ name

/-- Model of `os.path.basename`: the part of the path after the last slash. -/
def basenameOf (p : String) : String :=
  String.mk ((p.data.reverse.takeWhile (fun c => c ≠ '/')).reverse)

/-- Model of `str.lower()` (character-wise ASCII lowering suffices for
the extension strings compared against it). -/
def lowerStr (s : String) : String := String.mk (s.data.map Char.toLower)

/-- Number of leading dot characters of a character list; `os.path.splitext`
ignores these when looking for the extension separator. -/
def leadingDots : List Char → Nat
  | [] => 0
  | c :: rest => if c = '.' then leadingDots rest + 1 else 0

/-- Index of the rightmost occurrence of `c` in `cs`, if any. -/
def lastIdxOf (c : Char) (cs : List Char) : Option Nat :=
  match cs.reverse.findIdx? (· = c) with
  | some i => some (cs.length - 1 - i)
  | none => none

/-- Position of the extension separator chosen by `os.path.splitext` on a
basename: the rightmost dot whose index is at least the number of leading
dots (Python treats names made only of leading dots as extension-free). -/
def splitextIdx (cs : List Char) : Option Nat :=
  match lastIdxOf '.' cs with
  | some i => if leadingDots cs ≤ i then some i else none
  | none => none

/-- Model of `os.path.splitext(name)[0]` for a slash-free name. -/
def stemOf (name : String) : String :=
  match splitextIdx name.data with
  | some i => String.mk (name.data.take i)
  | none => name

/-- Model of `os.path.splitext(name)[1]` for a slash-free name. -/
def extOf (name : String) : String :=
  match splitextIdx name.data with
  | some i => String.mk (name.data.drop i)
  | none => ""

-- ===========================================================================
-- Pipeline stages (ocr_processor.py)
-- ===========================================================================

/-- The image extensions handled by the second branch of `convert_to_png`. -/
def imageExts : List String := [".jpg", ".jpeg", ".bmp", ".tif", ".tiff", ".webp"]

/-- Embedding of `convert_to_png` (ocr_processor.py, lines 5-36).  The
content of a PDF is abstracted by `pdfPages`, the number of pages the
renderer produces for it; the image bytes themselves never influence the
control flow of the source function. -/
def convert_to_png (input_path output_dir : String) (pdfPages : Nat) : List String :=
  let base := stemOf (basenameOf input_path)
  let ext := lowerStr (extOf (basenameOf input_path))
  if ext = ".png" then [input_path]
  else if imageExts.contains ext then [joinPath output_dir (base ++ ".png")]
  else if ext = ".pdf" then
    (List.range pdfPages).map (fun i => joinPath output_dir (base ++ "_page_" ++ toString (i + 1) ++ ".png"))
  else []

/-- True exactly when `convert_to_png` has a branch for the extension. -/
def convertSupports (ext : String) : Bool :=
  ext = ".png" || imageExts.contains ext || ext = ".pdf"

/-- One recognized line as PaddleOCR reports it: the `res[1]` pair of
recognized text and confidence (the confidence is never read apart from
its presence). -/
structure OcrLine where
  text : String
  conf : Int
deriving Repr, DecidableEq

/-- Per-page text assembled by the inner loop of `run_paddle_ocr`:
the newline-join of the recognized line texts of that page. -/
def pageText (lines : List OcrLine) : String :=
  String.intercalate "\n" (lines.map (fun l => l.text))

/-- Embedding of `run_paddle_ocr` (ocr_processor.py, lines 39-62).  The
recognition engine is abstracted as a function from an image path to its
recognized lines; the source appends exactly one joined entry per input
image, in input order. -/
def run_paddle_ocr (engine : String → List OcrLine) (png_paths : List String) : List String :=
  png_paths.map (fun png => pageText (engine png))

/-- Embedding of `process_ocr` (ocr_processor.py, lines 65-69). -/
def process_ocr (engine : String → List OcrLine) (file_path output_dir : String)
    (pdfPages : Nat) : List String :=
  let png_paths := convert_to_png file_path output_dir pdfPages
  if png_paths.isEmpty then [] else run_paddle_ocr engine png_paths

-- ===========================================================================
-- Task store model (Redis hash `task:{id}` plus blob `task:{id}:result`)
-- ===========================================================================

/-- The task hash written by `process_ocr_endpoint` (api_v1.py, lines
223-234).  The two boolean form flags and the timestamp fields are
irrelevant to every claim and omitted; `error` and `celery_task_id` are
absent until first written, hence `Option`. -/
structure TaskRec where
  task_id : String := ""
  status : String := ""
  filename : String := ""
  language : String := ""
  user_id : String := ""
  created_at : String := ""
  error : Option String := none
  celery_task_id : Option String := none
deriving Repr, DecidableEq

/-- The result blob stored at `task:{id}:result` (api_v1.py, lines
261-266), with the JSON round trip modelled as the identity. -/
structure ResultData where
  detected_texts : List String
  all_text : String
  pages_processed : Nat
deriving Repr, DecidableEq

/-- The durable store: the task hashes and the result blobs. -/
structure Store where
  tasks : List (String × TaskRec)
  results : List (String × ResultData)
deriving Repr, DecidableEq

/-- Set a key in an association list, updating in place or appending. -/
def assocSet {β : Type} (l : List (String × β)) (k : String) (v : β) : List (String × β) :=
  match l with
  | [] => [(k, v)]
  | (k2, v2) :: rest => if k2 = k then (k, v) :: rest else (k2, v2) :: assocSet rest k v

def lookupTask (s : Store) (tid : String) : Option TaskRec := s.tasks.lookup tid

def lookupResult (s : Store) (tid : String) : Option ResultData := s.results.lookup tid

/-- The status field of a task hash, if the hash exists. -/
def statusOf (s : Store) (tid : String) : Option String :=
  (lookupTask s tid).map (fun t => t.status)

/-- The error field of a task hash, if the hash exists and the field is set. -/
def errorOf (s : Store) (tid : String) : Option String :=
  (lookupTask s tid).bind (fun t => t.error)

/-- One atomic Redis write as the source issues them.  Each constructor is
one client call: a single `hset` (of one field or of one mapping) or one
`set`/`delete` of the result blob. -/
inductive StoreOp where
  | hsetStatus (tid status : String)
  | hsetFail (tid err : String)
  | setResult (tid : String) (rd : ResultData)
  | hsetNew (tid : String) (t : TaskRec)
  | delTask (tid : String)
  | delResult (tid : String)
deriving Repr, DecidableEq

/-- Apply one atomic write.  As in Redis, `hset` on an absent key creates
the hash with only the written fields present (other fields default). -/
def applyOp (s : Store) : StoreOp → Store
  | .hsetStatus tid st =>
    match s.tasks.lookup tid with
    | some t => { s with tasks := assocSet s.tasks tid { t with status := st } }
    | none => { s with tasks := assocSet s.tasks tid { status := st } }
  | .hsetFail tid e =>
    match s.tasks.lookup tid with
    | some t => { s with tasks := assocSet s.tasks tid { t with status := "failed", error := some e } }
    | none => { s with tasks := assocSet s.tasks tid { status := "failed", error := some e } }
  | .setResult tid rd => { s with results := assocSet s.results tid rd }
  | .hsetNew tid t => { s with tasks := assocSet s.tasks tid t }
  | .delTask tid => { s with tasks := s.tasks.filter (fun p => p.1 ≠ tid) }
  | .delResult tid => { s with results := s.results.filter (fun p => p.1 ≠ tid) }

def applyOps (s : Store) (ops : List StoreOp) : Store := ops.foldl applyOp s

/-- All states a concurrent reader can observe while a write sequence runs:
the initial state and the state after each prefix of the writes. -/
def traceStates (s : Store) : List StoreOp → List Store
  | [] => [s]
  | op :: ops => s :: traceStates (applyOp s op) ops

/-- The result payload built by the in-process worker (api_v1.py, lines
261-266) from the per-page texts. -/
def mkResultData (texts : List String) : ResultData :=
  { detected_texts := texts
    all_text := String.intercalate "\n" texts
    pages_processed := texts.length }

/-- The write sequence of the in-process worker `process_task` (api_v1.py,
lines 252-276): on success the status field is written first and the
result blob second; on any exception a single mapping write marks the
task failed. -/
def process_task_ops (tid : String) (outcome : Except String (List String)) : List StoreOp :=
  match outcome with
  | .ok texts => [.hsetStatus tid "completed", .setResult tid (mkResultData texts)]
  | .error e => [.hsetFail tid e]

/-- State of the delegated Celery job as `AsyncResult` reports it. -/
inductive JobState where
  | pending
  | success (rd : ResultData)
  | failure (e : String)
deriving Repr, DecidableEq

/-- The write sequence of the reconcile block inside `get_ocr_status`
(api_v1.py, lines 335-354): same order as the worker on success, one
mapping write on failure, nothing while pending. -/
def reconcile_ops (tid : String) (job : JobState) : List StoreOp :=
  match job with
  | .success rd => [.hsetStatus tid "completed", .setResult tid rd]
  | .failure e => [.hsetFail tid e]
  | .pending => []

/-- The worker body on the path where no stage raises: `process_ocr` runs
to completion and the success writes are issued.  (A stage exception is
the `.error` case of `process_task_ops`; for inputs whose conversion
returns the empty list the source reaches no fallible call, so this is
the only possible trace there.) -/
def worker_ops (engine : String → List OcrLine) (tid file_path output_dir : String)
    (pdfPages : Nat) : List StoreOp :=
  process_task_ops tid (.ok (process_ocr engine file_path output_dir pdfPages))

/-- The store invariant claimed for every observable state: a result blob
exists exactly when the task status is the string `completed`. -/
def resultIffCompleted (s : Store) (tid : String) : Prop :=
  (lookupResult s tid).isSome ↔ statusOf s tid = some "completed"

instance (s : Store) (tid : String) : Decidable (resultIffCompleted s tid) := by
  unfold resultIffCompleted; infer_instance

-- ===========================================================================
-- Invoice extraction data (invoice_extractor.py / api_v1.py)
-- ===========================================================================

/-- The six extracted string fields returned for one page. -/
structure InvoiceFields where
  invoice_number : String := ""
  invoice_date : String := ""
  vendor_name : String := ""
  customer_name : String := ""
  total_amount : String := ""
  tax_amount : String := ""
deriving Repr, DecidableEq

/-- The record with all six fields empty. -/
def emptyInvoiceFields : InvoiceFields := {}

/-- One entry of the `invoice_data` response list: the six fields, the
page number stamped by the endpoint, and the error marker set on the
per-page fallback path. -/
structure PageEntry where
  fields : InvoiceFields
  page_number : Nat
  error : Option String
deriving Repr, DecidableEq

/-- The loop `for idx, page_text in enumerate(detected_texts, 1)` of
`extract_invoice_data` (api_v1.py, lines 530-547): each page is extracted
independently; a raising page contributes the empty-field entry with the
error string, the others their extracted fields. -/
def extractPagesFrom (extractor : String → Except String InvoiceFields) (idx : Nat) :
    List String → List PageEntry
  | [] => []
  | t :: rest =>
    (match extractor t with
     | .ok f => { fields := f, page_number := idx, error := none }
     | .error e => { fields := emptyInvoiceFields, page_number := idx, error := some e }) ::
    extractPagesFrom extractor (idx + 1) rest

-- ===========================================================================
-- Endpoints (blueprints/api_v1.py)
-- ===========================================================================

/-- Responses of `get_ocr_status` that the claims distinguish. -/
inductive StatusResp where
  | notFound
  | accessDenied
  | ok (status : String) (error_message : Option String)
deriving Repr, DecidableEq

/-- Embedding of `get_ocr_status` (api_v1.py, lines 300-367), including
the lazy reconcile of a delegated Celery job; `celery` maps a Celery task
id to the observed `AsyncResult` state.  Returns the store after the
endpoint ran together with the response. -/
def get_ocr_status (celery : String → JobState) (requester tid : String) (s : Store) :
    Store × StatusResp :=
  match lookupTask s tid with
  | none => (s, .notFound)
  | some t =>
    if t.user_id ≠ requester then (s, .accessDenied)
    else
      match t.celery_task_id with
      | some cid =>
        if t.status = "processing" then
          match celery cid with
          | .success rd =>
            (applyOps s (reconcile_ops tid (.success rd)), .ok "completed" t.error)
          | .failure e =>
            (applyOps s (reconcile_ops tid (.failure e)), .ok "failed" (some e))
          | .pending => (s, .ok t.status t.error)
        else (s, .ok t.status t.error)
      | none => (s, .ok t.status t.error)

/-- Responses of `get_ocr_result` that the claims distinguish. -/
inductive ResultResp where
  | notFound
  | accessDenied
  | stillProcessing
  | processingFailed (msg : String)
  | ok (rd : ResultData)
  | unknownStatus
deriving Repr, DecidableEq

/-- Embedding of `get_ocr_result` (api_v1.py, lines 370-438); a read-only
endpoint.  A completed task whose result blob is missing falls through to
the UNKNOWN_STATUS response, exactly as in the source. -/
def get_ocr_result (requester tid : String) (s : Store) : ResultResp :=
  match lookupTask s tid with
  | none => .notFound
  | some t =>
    if t.user_id ≠ requester then .accessDenied
    else if t.status = "processing" then .stillProcessing
    else if t.status = "failed" then .processingFailed (t.error.getD "Processing failed")
    else if t.status = "completed" then
      match lookupResult s tid with
      | some rd => .ok rd
      | none => .unknownStatus
    else .unknownStatus

/-- Responses of `extract_invoice_data` that the claims distinguish. -/
inductive ExtractResp where
  | notFound
  | accessDenied
  | notCompleted
  | resultsNotFound
  | pageOutOfRange
  | extractionFailed (msg : String)
  | ok (invoice_data : List PageEntry) (total_pages : Nat)
deriving Repr, DecidableEq

/-- Embedding of `extract_invoice_data` (api_v1.py, lines 445-559).  The
extraction backend is abstracted as `extractor`; a raising call to
`extract_structured_from_text` is its `.error` case.  `page_number` is
`none` when the validated payload omitted it; the source guard
`if page_number:` also sends a zero through the all-pages branch.
Returns the store after the endpoint ran together with the response. -/
def extract_invoice_data (extractor : String → Except String InvoiceFields)
    (requester tid : String) (page_number : Option Nat) (s : Store) :
    Store × ExtractResp :=
  match lookupTask s tid with
  | none => (s, .notFound)
  | some t =>
    if t.user_id ≠ requester then (s, .accessDenied)
    else if t.status ≠ "completed" then (s, .notCompleted)
    else
      match lookupResult s tid with
      | none => (s, .resultsNotFound)
      | some rd =>
        let texts := rd.detected_texts
        let allPages : Store × ExtractResp :=
          (s, .ok (extractPagesFrom extractor 1 texts) texts.length)
        match page_number with
        | none => allPages
        | some p =>
          if p = 0 then allPages
          else if texts.length < p then (s, .pageOutOfRange)
          else
            match extractor (texts.getD (p - 1) "") with
            | .ok f => (s, .ok [{ fields := f, page_number := p, error := none }] texts.length)
            | .error e => (s, .extractionFailed ("Extraction failed: " ++ e))

/-- The store together with the files present on disk, for the endpoints
that touch the file system; a file is identified by its path string. -/
structure Sys where
  store : Store
  files : List String
deriving Repr, DecidableEq

/-- Model of the `os.path.exists` check followed by `os.remove`: the path
is absent afterwards, and removing an absent path changes nothing. -/
def removeFile (fs : List String) (p : String) : List String :=
  fs.filter (fun q => q ≠ p)

/-- Responses of `download_file` that the claims distinguish. -/
inductive DownloadResp where
  | notFound
  | accessDenied
  | fileNotFound
  | sendFile (path : String)
deriving Repr, DecidableEq

/-- Embedding of `download_file` (api_v1.py, lines 566-615); read-only. -/
def download_file (outputDir : String) (requester tid fname : String) (sys : Sys) :
    Sys × DownloadResp :=
  match lookupTask sys.store tid with
  | none => (sys, .notFound)
  | some t =>
    if t.user_id ≠ requester then (sys, .accessDenied)
    else
      let p := joinPath outputDir fname
      if sys.files.contains p then (sys, .sendFile p) else (sys, .fileNotFound)

/-- Responses of `delete_task` that the claims distinguish. -/
inductive DeleteResp where
  | notFound
  | accessDenied
  | okDeleted
deriving Repr, DecidableEq

/-- Embedding of `delete_task` (api_v1.py, lines 694-751): deletes the
task hash and the result blob, then the uploaded file and the three
derived siblings reconstructed from the stored filename. -/
def delete_task (uploadDir outputDir : String) (requester tid : String) (sys : Sys) :
    Sys × DeleteResp :=
  match lookupTask sys.store tid with
  | none => (sys, .notFound)
  | some t =>
    if t.user_id ≠ requester then (sys, .accessDenied)
    else
      let st := applyOps sys.store [.delTask tid, .delResult tid]
      let fname := t.filename
      let files2 :=
        if fname ≠ "" then
          let f1 := removeFile sys.files (joinPath uploadDir fname)
          [".txt", ".json", ".png"].foldl
            (fun acc ext => removeFile acc (joinPath outputDir (stemOf fname ++ ext))) f1
        else sys.files
      ({ store := st, files := files2 }, .okDeleted)

/-- Response of the submission endpoint after validation passed. -/
inductive SubmitResp where
  | accepted (task_id status message : String)
deriving Repr, DecidableEq

/-- Embedding of the tail of `process_ocr_endpoint` (api_v1.py, lines
219-294), from task creation on (validation and file saving already
passed).  `startErr` is `some e` when the attempt to start background
processing raised with message `e`; the handler then overwrites the task
to failed, and the function still falls through to the 202 response. -/
def process_ocr_endpoint_post (tid filename language requester created_at : String)
    (startErr : Option String) (s : Store) : Store × SubmitResp :=
  let t : TaskRec :=
    { task_id := tid, status := "processing", filename := filename,
      language := language, user_id := requester, created_at := created_at }
  let s1 := applyOp s (.hsetNew tid t)
  let s2 :=
    match startErr with
    | some e => applyOp s1 (.hsetFail tid ("Failed to start processing: " ++ e))
    | none => s1
  (s2, .accepted tid "processing" "OCR processing started")

-- ===========================================================================
-- Extraction backend response handling (invoice_extractor.py, lines 24-50)
-- ===========================================================================

/-- Drop leading JSON whitespace. -/
def skipWs : List Char → List Char
  | [] => []
  | c :: rest => if c = ' ' || c = '\n' || c = '\t' || c = '\r' then skipWs rest else c :: rest

/-- Body of a JSON string literal after its opening quote; escape
sequences are outside the model and make the parse fail. -/
def parseStrBody : List Char → List Char → Option (String × List Char)
  | [], _ => none
  | c :: rest, acc =>
    if c = '"' then some (String.mk acc.reverse, rest)
    else if c = '\\' then none
    else parseStrBody rest (c :: acc)

/-- A JSON string literal. -/
def parseStringLit : List Char → Option (String × List Char)
  | '"' :: rest => parseStrBody rest []
  | _ => none

/-- A nonempty comma-separated sequence of string-to-string pairs; the
fuel bounds the recursion by the input length. -/
def parsePairsAux : Nat → List Char → Option (List (String × String) × List Char)
  | 0, _ => none
  | fuel + 1, cs =>
    match parseStringLit (skipWs cs) with
    | none => none
    | some (k, cs1) =>
      match skipWs cs1 with
      | ':' :: cs2 =>
        match parseStringLit (skipWs cs2) with
        | none => none
        | some (v, cs3) =>
          match skipWs cs3 with
          | ',' :: cs4 =>
            match parsePairsAux fuel cs4 with
            | some (ps, rest) => some ((k, v) :: ps, rest)
            | none => none
          | cs4 => some ([(k, v)], cs4)
      | _ => none

/-- Model of `json.loads` restricted to what the extractor consumes: a
flat JSON object with string keys and string values (no escapes, no
nesting, no non-string values); every other document is a parse failure,
as is any trailing content after the object. -/
def jsonParseObj (content : String) : Option (List (String × String)) :=
  match skipWs content.data with
  | '{' :: cs1 =>
    (match skipWs cs1 with
     | '}' :: cs2 => if (skipWs cs2).isEmpty then some [] else none
     | cs2 =>
       match parsePairsAux (cs2.length + 1) cs2 with
       | some (ps, rest) =>
         match skipWs rest with
         | '}' :: cs3 => if (skipWs cs3).isEmpty then some ps else none
         | _ => none
       | none => none)
  | _ => none

/-- Model of Python `str.find(c)`: index of the first occurrence or -1. -/
def pyFind (cs : List Char) (c : Char) : Int :=
  match cs.findIdx? (· = c) with
  | some i => (i : Int)
  | none => -1

/-- Model of Python `str.rfind(c)`: index of the last occurrence or -1. -/
def pyRfind (cs : List Char) (c : Char) : Int :=
  match lastIdxOf c cs with
  | some i => (i : Int)
  | none => -1

/-- The salvage of `extract_with_azure_openai` (invoice_extractor.py,
lines 31-42): when the whole content fails to parse, slice from the
first brace through the last brace and try that; on any failure the data
is the empty dict. -/
def parseDataFromContent (content : String) : List (String × String) :=
  match jsonParseObj content with
  | some d => d
  | none =>
    let cs := content.data
    let start := pyFind cs '{'
    let stop := pyRfind cs '}'
    if start ≠ -1 ∧ stop ≠ -1 ∧ start < stop then
      match jsonParseObj (String.mk ((cs.drop start.toNat).take (stop.toNat + 1 - start.toNat))) with
      | some d => d
      | none => []
    else []

/-- Model of `str(data.get(k, ""))` for the string-valued dicts of the
model. -/
def dictGetStr (d : List (String × String)) (k : String) : String :=
  (d.lookup k).getD ""

/-- The six-field record assembled from a parsed dict (invoice_extractor.py,
lines 43-50). -/
def fieldsFromData (d : List (String × String)) : InvoiceFields :=
  { invoice_number := dictGetStr d "invoice_number"
    invoice_date := dictGetStr d "invoice_date"
    vendor_name := dictGetStr d "vendor_name"
    customer_name := dictGetStr d "customer_name"
    total_amount := dictGetStr d "total_amount"
    tax_amount := dictGetStr d "tax_amount" }

/-- Embedding of the response-content handling of
`extract_with_azure_openai` (invoice_extractor.py, lines 31-50); the
network call is abstracted into the `content` argument (a failed request
yields the literal content `{}`). -/
def extract_with_azure_openai_content (content : String) : InvoiceFields :=
  fieldsFromData (parseDataFromContent content)

/-- Scan for the closing brace matching the first opening brace, counting
depth; `acc` holds the scanned characters in reverse. -/
def firstBalancedAux : List Char → Nat → List Char → Option String
  | [], _, _ => none
  | c :: rest, depth, acc =>
    if c = '{' then firstBalancedAux rest (depth + 1) (c :: acc)
    else if c = '}' then
      if depth = 1 then some (String.mk (c :: acc).reverse)
      else if depth = 0 then none
      else firstBalancedAux rest (depth - 1) (c :: acc)
    else firstBalancedAux rest depth (c :: acc)

/-- The first balanced `{...}` substring of the content, in the words of
the specification: from the first opening brace to its matching closing
brace. -/
def firstBalancedSubstring (content : String) : Option String :=
  match content.data.findIdx? (· = '{') with
  | none => none
  | some i => firstBalancedAux (content.data.drop i) 0 []

/-- The salvage behaviour the specification describes, as a second
definition to compare against the embedded source: on a parse failure,
parse the first balanced `{...}` substring, then give up to the empty
dict. -/
def spec_salvage_fields (content : String) : InvoiceFields :=
  fieldsFromData
    (match jsonParseObj content with
     | some d => d
     | none =>
       match firstBalancedSubstring content with
       | some sub => (jsonParseObj sub).getD []
       | none => [])

/-- The clean form of the code slice: the substring from the first brace
through the last brace, when both exist in that order. -/
def braceSlice (content : String) : Option String :=
  match content.data.findIdx? (· = '{'), lastIdxOf '}' content.data with
  | some i, some j => if i < j then some (String.mk ((content.data.drop i).take (j + 1 - i))) else none
  | _, _ => none

-- ===========================================================================
-- Helper lemmas
-- ===========================================================================

theorem lookup_assocSet_self {β : Type} (l : List (String × β)) (k : String) (v : β) :
    (assocSet l k v).lookup k = some v := by
  induction l with
  | nil => simp [assocSet, List.lookup]
  | cons hd t ih =>
    obtain ⟨k2, v2⟩ := hd
    by_cases hk : k2 = k
    · subst hk; simp [assocSet, List.lookup]
    · simp only [assocSet, if_neg hk, List.lookup]
      have hb : (k == k2) = false := by
        simp only [beq_eq_false_iff_ne]; exact fun h => hk h.symm
      simp [hb, ih]

theorem lookup_filter_ne_self {β : Type} (l : List (String × β)) (k : String) :
    (l.filter (fun p => p.1 ≠ k)).lookup k = none := by
  induction l with
  | nil => simp [List.lookup]
  | cons hd t ih =>
    obtain ⟨k2, v2⟩ := hd
    by_cases hk : k2 = k
    · subst hk; simpa [List.filter] using ih
    · have hb : (k == k2) = false := by
        simp only [beq_eq_false_iff_ne]; exact fun h => hk h.symm
      simp only [List.filter, ne_eq, hk, not_false_eq_true, decide_True, List.lookup, hb]
      exact ih

theorem statusOf_hsetStatus (s : Store) (tid st : String) :
    statusOf (applyOp s (.hsetStatus tid st)) tid = some st := by
  unfold statusOf lookupTask applyOp
  cases h : s.tasks.lookup tid <;> simp [h, lookup_assocSet_self]

theorem lookupResult_hsetStatus (s : Store) (tid st tid2 : String) :
    lookupResult (applyOp s (.hsetStatus tid st)) tid2 = lookupResult s tid2 := by
  unfold lookupResult applyOp
  cases h : s.tasks.lookup tid <;> simp [h]

theorem statusOf_hsetFail (s : Store) (tid e : String) :
    statusOf (applyOp s (.hsetFail tid e)) tid = some "failed" := by
  unfold statusOf lookupTask applyOp
  cases h : s.tasks.lookup tid <;> simp [h, lookup_assocSet_self]

theorem errorOf_hsetFail (s : Store) (tid e : String) :
    errorOf (applyOp s (.hsetFail tid e)) tid = some e := by
  unfold errorOf lookupTask applyOp
  cases h : s.tasks.lookup tid <;> simp [h, lookup_assocSet_self]

theorem lookupResult_hsetFail (s : Store) (tid e tid2 : String) :
    lookupResult (applyOp s (.hsetFail tid e)) tid2 = lookupResult s tid2 := by
  unfold lookupResult applyOp
  cases h : s.tasks.lookup tid <;> simp [h]

theorem lookupResult_setResult_self (s : Store) (tid : String) (rd : ResultData) :
    lookupResult (applyOp s (.setResult tid rd)) tid = some rd := by
  unfold lookupResult applyOp
  simp [lookup_assocSet_self]

theorem statusOf_setResult (s : Store) (tid : String) (rd : ResultData) (tid2 : String) :
    statusOf (applyOp s (.setResult tid rd)) tid2 = statusOf s tid2 := rfl

theorem statusOf_hsetNew_self (s : Store) (tid : String) (t : TaskRec) :
    statusOf (applyOp s (.hsetNew tid t)) tid = some t.status := by
  unfold statusOf lookupTask applyOp
  simp [lookup_assocSet_self]

theorem lookupTask_delTask_self (s : Store) (tid : String) :
    lookupTask (applyOp s (.delTask tid)) tid = none := by
  unfold lookupTask applyOp
  exact lookup_filter_ne_self s.tasks tid

theorem lookupResult_delResult_self (s : Store) (tid : String) :
    lookupResult (applyOp s (.delResult tid)) tid = none := by
  unfold lookupResult applyOp
  exact lookup_filter_ne_self s.results tid

theorem lookupTask_delResult (s : Store) (tid tid2 : String) :
    lookupTask (applyOp s (.delResult tid)) tid2 = lookupTask s tid2 := rfl

theorem extractPagesFrom_length (ex : String → Except String InvoiceFields) (i : Nat)
    (ts : List String) : (extractPagesFrom ex i ts).length = ts.length := by
  induction ts generalizing i with
  | nil => rfl
  | cons t rest ih => simp [extractPagesFrom, ih]

theorem extractPagesFrom_getD (ex : String → Except String InvoiceFields) (ts : List String)
    (d0 : PageEntry) : ∀ i j, j < ts.length →
    (extractPagesFrom ex i ts).getD j d0 =
      (match ex (ts.getD j "") with
       | .ok f => { fields := f, page_number := i + j, error := none }
       | .error e => { fields := emptyInvoiceFields, page_number := i + j, error := some e }) := by
  induction ts with
  | nil => intro i j h; simp at h
  | cons t rest ih =>
    intro i j h
    cases j with
    | zero => simp [extractPagesFrom]
    | succ j2 =>
      have h2 : j2 < rest.length := by simpa using h
      simp only [extractPagesFrom, List.getD_cons_succ]
      rw [ih (i + 1) j2 h2]
      have : i + 1 + j2 = i + (j2 + 1) := by omega
      rw [this]

theorem map_getD_lt {α β : Type} (f : α → β) (l : List α) (i : Nat) (h : i < l.length)
    (d1 : β) (d2 : α) : (l.map f).getD i d1 = f (l.getD i d2) := by
  induction l generalizing i with
  | nil => simp at h
  | cons a t ih =>
    cases i with
    | zero => simp
    | succ i2 =>
      have h2 : i2 < t.length := by simpa using h
      simp only [List.map_cons, List.getD_cons_succ]
      exact ih i2 h2

theorem get_ocr_status_snd_notFound (celery : String → JobState) (requester tid : String)
    (s : Store) (h : lookupTask s tid = none) :
    (get_ocr_status celery requester tid s).2 = .notFound := by
  unfold get_ocr_status; rw [h]

theorem get_ocr_status_snd_accessDenied_iff (celery : String → JobState)
    (requester tid : String) (s : Store) :
    (get_ocr_status celery requester tid s).2 = .accessDenied ↔
      ∃ t, lookupTask s tid = some t ∧ t.user_id ≠ requester := by
  unfold get_ocr_status
  cases hT : lookupTask s tid with
  | none => simp
  | some t =>
    by_cases ho : t.user_id ≠ requester
    · simp [ho]
    · have heq : t.user_id = requester := not_not.mp ho
      subst heq
      simp only [ne_eq, not_true_eq_false, if_false, Option.some.injEq]
      constructor
      · intro h
        exfalso
        split at h
        · split at h
          · split at h <;> simp at h
          · simp at h
        · simp at h
      · rintro ⟨t2, rfl, hne⟩
        exact absurd rfl hne

theorem get_ocr_result_notFound (requester tid : String) (s : Store)
    (h : lookupTask s tid = none) : get_ocr_result requester tid s = .notFound := by
  unfold get_ocr_result; rw [h]

theorem get_ocr_result_accessDenied_iff (requester tid : String) (s : Store) :
    get_ocr_result requester tid s = .accessDenied ↔
      ∃ t, lookupTask s tid = some t ∧ t.user_id ≠ requester := by
  unfold get_ocr_result
  cases hT : lookupTask s tid with
  | none => simp
  | some t =>
    by_cases ho : t.user_id ≠ requester
    · simp [ho]
    · have heq : t.user_id = requester := not_not.mp ho
      subst heq
      simp only [ne_eq, not_true_eq_false, if_false, Option.some.injEq]
      constructor
      · intro h
        exfalso
        repeat' split at h
        all_goals simp at h
      · rintro ⟨t2, rfl, hne⟩
        exact absurd rfl hne

theorem extract_snd_notFound (extractor : String → Except String InvoiceFields)
    (requester tid : String) (pn : Option Nat) (s : Store)
    (h : lookupTask s tid = none) :
    (extract_invoice_data extractor requester tid pn s).2 = .notFound := by
  unfold extract_invoice_data; rw [h]

theorem extract_snd_accessDenied_iff (extractor : String → Except String InvoiceFields)
    (requester tid : String) (pn : Option Nat) (s : Store) :
    (extract_invoice_data extractor requester tid pn s).2 = .accessDenied ↔
      ∃ t, lookupTask s tid = some t ∧ t.user_id ≠ requester := by
  unfold extract_invoice_data
  cases hT : lookupTask s tid with
  | none => simp
  | some t =>
    by_cases ho : t.user_id ≠ requester
    · simp [ho]
    · have heq : t.user_id = requester := not_not.mp ho
      subst heq
      simp only [ne_eq, not_true_eq_false, if_false, Option.some.injEq]
      constructor
      · intro h
        exfalso
        repeat' split at h
        all_goals simp at h
      · rintro ⟨t2, rfl, hne⟩
        exact absurd rfl hne

theorem download_snd_notFound (outputDir requester tid fname : String) (sys : Sys)
    (h : lookupTask sys.store tid = none) :
    (download_file outputDir requester tid fname sys).2 = .notFound := by
  unfold download_file; rw [h]

theorem download_snd_accessDenied_iff (outputDir requester tid fname : String) (sys : Sys) :
    (download_file outputDir requester tid fname sys).2 = .accessDenied ↔
      ∃ t, lookupTask sys.store tid = some t ∧ t.user_id ≠ requester := by
  unfold download_file
  cases hT : lookupTask sys.store tid with
  | none => simp
  | some t =>
    by_cases ho : t.user_id ≠ requester
    · simp [ho]
    · have heq : t.user_id = requester := not_not.mp ho
      subst heq
      simp only [ne_eq, not_true_eq_false, if_false, Option.some.injEq]
      constructor
      · intro h
        exfalso
        repeat' split at h
        all_goals simp at h
      · rintro ⟨t2, rfl, hne⟩
        exact absurd rfl hne

theorem delete_snd_notFound (uploadDir outputDir requester tid : String) (sys : Sys)
    (h : lookupTask sys.store tid = none) :
    (delete_task uploadDir outputDir requester tid sys).2 = .notFound := by
  unfold delete_task; rw [h]

theorem delete_snd_accessDenied_iff (uploadDir outputDir requester tid : String) (sys : Sys) :
    (delete_task uploadDir outputDir requester tid sys).2 = .accessDenied ↔
      ∃ t, lookupTask sys.store tid = some t ∧ t.user_id ≠ requester := by
  unfold delete_task
  cases hT : lookupTask sys.store tid with
  | none => simp
  | some t =>
    by_cases ho : t.user_id ≠ requester
    · simp [ho]
    · have heq : t.user_id = requester := not_not.mp ho
      subst heq
      simp only [ne_eq, not_true_eq_false, if_false, Option.some.injEq]
      constructor
      · intro h
        exfalso
        simp at h
      · rintro ⟨t2, rfl, hne⟩
        exact absurd rfl hne

theorem not_mem_removeFile_self (fs : List String) (p : String) : p ∉ removeFile fs p := by
  simp [removeFile, List.mem_filter]

theorem mem_of_mem_removeFile (fs : List String) (p x : String)
    (h : x ∈ removeFile fs p) : x ∈ fs :=
  (List.mem_filter.mp h).1

-- ===========================================================================
-- Claims
-- ===========================================================================

/-- C1 (counterexample): the in-process worker writes `status = completed`
before it writes the result blob, so the trace of its success path
contains an observable store state whose status is `completed` while the
result blob is still absent — refuting the claim that no read ever
observes `completed` without a Result. -/
theorem C1_intermediate_state_violates :
    ∃ s ∈ traceStates
        { tasks := [("t1", { task_id := "t1", status := "processing", user_id := "alice" })],
          results := [] }
        (process_task_ops "t1" (.ok ["hello"])),
      statusOf s "t1" = some "completed" ∧ lookupResult s "t1" = none := by
  decide

/-- C1 (amended): the biconditional `Result present ↔ status = completed`
does hold in the final state once the worker write sequence or the
reconcile write sequence has fully run, for every task that started
`processing` with no result; only the intermediate state between the two
success writes violates it. -/
theorem C1_terminal_result_iff_completed (s0 : Store) (tid : String)
    (outcome : Except String (List String)) (job : JobState)
    (h1 : statusOf s0 tid = some "processing")
    (h2 : lookupResult s0 tid = none) :
    resultIffCompleted (applyOps s0 (process_task_ops tid outcome)) tid ∧
    resultIffCompleted (applyOps s0 (reconcile_ops tid job)) tid := by
  constructor
  · cases outcome with
    | ok texts =>
      show resultIffCompleted
        (applyOp (applyOp s0 (.hsetStatus tid "completed")) (.setResult tid (mkResultData texts))) tid
      unfold resultIffCompleted
      rw [lookupResult_setResult_self, statusOf_setResult, statusOf_hsetStatus]
      simp
    | error e =>
      show resultIffCompleted (applyOp s0 (.hsetFail tid e)) tid
      unfold resultIffCompleted
      rw [lookupResult_hsetFail, h2, statusOf_hsetFail]
      simp
  · cases job with
    | pending =>
      show resultIffCompleted s0 tid
      unfold resultIffCompleted
      rw [h2, h1]
      simp
    | success rd =>
      show resultIffCompleted
        (applyOp (applyOp s0 (.hsetStatus tid "completed")) (.setResult tid rd)) tid
      unfold resultIffCompleted
      rw [lookupResult_setResult_self, statusOf_setResult, statusOf_hsetStatus]
      simp
    | failure e =>
      show resultIffCompleted (applyOp s0 (.hsetFail tid e)) tid
      unfold resultIffCompleted
      rw [lookupResult_hsetFail, h2, statusOf_hsetFail]
      simp

/-- C1 (witness): the amended theorem applied to a concrete one-task
store, a successful worker outcome and a failed delegated job. -/
theorem C1_terminal_result_iff_completed_witness :
    resultIffCompleted
      (applyOps
        { tasks := [("t1", { task_id := "t1", status := "processing", user_id := "alice" })],
          results := [] }
        (process_task_ops "t1" (.ok ["hello"]))) "t1" ∧
    resultIffCompleted
      (applyOps
        { tasks := [("t1", { task_id := "t1", status := "processing", user_id := "alice" })],
          results := [] }
        (reconcile_ops "t1" (.failure "boom"))) "t1" :=
  C1_terminal_result_iff_completed
    { tasks := [("t1", { task_id := "t1", status := "processing", user_id := "alice" })],
      results := [] }
    "t1" (.ok ["hello"]) (.failure "boom") (by decide) (by decide)

/-- C2 (counterexample): a file whose extension no Convert branch
supports (`doc.txt`) makes `convert_to_png` return the empty sequence,
yet the worker drives the task to status `completed` — not `failed` as
the claim states. -/
theorem C2_unsupported_extension_completes :
    convert_to_png "doc.txt" "outputs" 0 = [] ∧
    statusOf
      (applyOps
        { tasks := [("t1", { task_id := "t1", status := "processing", user_id := "alice" })],
          results := [] }
        (worker_ops (fun _ => []) "t1" "doc.txt" "outputs" 0)) "t1" = some "completed" ∧
    statusOf
      (applyOps
        { tasks := [("t1", { task_id := "t1", status := "processing", user_id := "alice" })],
          results := [] }
        (worker_ops (fun _ => []) "t1" "doc.txt" "outputs" 0)) "t1" ≠ some "failed" := by
  refine ⟨by decide, by decide, by decide⟩

/-- C2 (amended): for a file whose extension Convert does not support,
Convert returns the empty page sequence and the worker drives the task
to terminal status `completed` with an empty Result (zero pages, empty
text) — it never reaches `failed` on this path. -/
theorem C2_unsupported_extension_empty_completed (engine : String → List OcrLine)
    (path dir : String) (pages : Nat) (s0 : Store) (tid : String)
    (h : convertSupports (lowerStr (extOf (basenameOf path))) = false) :
    convert_to_png path dir pages = [] ∧
    statusOf (applyOps s0 (worker_ops engine tid path dir pages)) tid = some "completed" ∧
    lookupResult (applyOps s0 (worker_ops engine tid path dir pages)) tid =
      some (mkResultData []) ∧
    (mkResultData []).pages_processed = 0 := by
  unfold convertSupports at h
  simp only [Bool.or_eq_false_iff, decide_eq_false_iff_not] at h
  obtain ⟨⟨h1, h2⟩, h3⟩ := h
  have h2m : lowerStr (extOf (basenameOf path)) ∉ imageExts := by simpa using h2
  have hconv : convert_to_png path dir pages = [] := by
    unfold convert_to_png
    simp [h1, h2m, h3]
  have hp : process_ocr engine path dir pages = [] := by
    unfold process_ocr
    simp [hconv]
  refine ⟨hconv, ?_, ?_, rfl⟩
  · show statusOf
      (applyOps s0 (process_task_ops tid (.ok (process_ocr engine path dir pages)))) tid =
        some "completed"
    rw [hp]
    show statusOf
      (applyOp (applyOp s0 (.hsetStatus tid "completed")) (.setResult tid (mkResultData []))) tid =
        some "completed"
    rw [statusOf_setResult, statusOf_hsetStatus]
  · show lookupResult
      (applyOps s0 (process_task_ops tid (.ok (process_ocr engine path dir pages)))) tid =
        some (mkResultData [])
    rw [hp]
    show lookupResult
      (applyOp (applyOp s0 (.hsetStatus tid "completed")) (.setResult tid (mkResultData []))) tid =
        some (mkResultData [])
    rw [lookupResult_setResult_self]

/-- C2 (witness): the amended theorem applied to a `.txt` upload against
a concrete one-task store. -/
theorem C2_unsupported_extension_empty_completed_witness :
    convert_to_png "doc.txt" "outputs" 0 = [] ∧
    statusOf
      (applyOps
        { tasks := [("t1", { task_id := "t1", status := "processing", user_id := "alice" })],
          results := [] }
        (worker_ops (fun _ => []) "t1" "doc.txt" "outputs" 0)) "t1" = some "completed" ∧
    lookupResult
      (applyOps
        { tasks := [("t1", { task_id := "t1", status := "processing", user_id := "alice" })],
          results := [] }
        (worker_ops (fun _ => []) "t1" "doc.txt" "outputs" 0)) "t1" = some (mkResultData []) ∧
    (mkResultData []).pages_processed = 0 :=
  C2_unsupported_extension_empty_completed (fun _ => []) "doc.txt" "outputs" 0
    { tasks := [("t1", { task_id := "t1", status := "processing", user_id := "alice" })],
      results := [] }
    "t1" (by decide)

/-- C3: across the five authenticated task endpoints (status, result,
extract, download, delete), an unknown task id yields NotFound for every
requester, and AccessDenied arises only when the task exists and its
owner differs from the requester — existence is checked before
ownership. -/
theorem C3_existence_precedes_ownership (celery : String → JobState)
    (extractor : String → Except String InvoiceFields)
    (uploadDir outputDir : String) (sys : Sys) (requester tid fname : String)
    (pn : Option Nat) :
    (lookupTask sys.store tid = none →
      (get_ocr_status celery requester tid sys.store).2 = .notFound ∧
      get_ocr_result requester tid sys.store = .notFound ∧
      (extract_invoice_data extractor requester tid pn sys.store).2 = .notFound ∧
      (download_file outputDir requester tid fname sys).2 = .notFound ∧
      (delete_task uploadDir outputDir requester tid sys).2 = .notFound) ∧
    (((get_ocr_status celery requester tid sys.store).2 = .accessDenied ∨
      get_ocr_result requester tid sys.store = .accessDenied ∨
      (extract_invoice_data extractor requester tid pn sys.store).2 = .accessDenied ∨
      (download_file outputDir requester tid fname sys).2 = .accessDenied ∨
      (delete_task uploadDir outputDir requester tid sys).2 = .accessDenied) →
      ∃ t, lookupTask sys.store tid = some t ∧ t.user_id ≠ requester) := by
  constructor
  · intro h
    exact ⟨get_ocr_status_snd_notFound celery requester tid sys.store h,
      get_ocr_result_notFound requester tid sys.store h,
      extract_snd_notFound extractor requester tid pn sys.store h,
      download_snd_notFound outputDir requester tid fname sys h,
      delete_snd_notFound uploadDir outputDir requester tid sys h⟩
  · rintro (h | h | h | h | h)
    · exact (get_ocr_status_snd_accessDenied_iff celery requester tid sys.store).mp h
    · exact (get_ocr_result_accessDenied_iff requester tid sys.store).mp h
    · exact (extract_snd_accessDenied_iff extractor requester tid pn sys.store).mp h
    · exact (download_snd_accessDenied_iff outputDir requester tid fname sys).mp h
    · exact (delete_snd_accessDenied_iff uploadDir outputDir requester tid sys).mp h

/-- C3 (witness): applied to an empty store (the NotFound half, for a
requester who is not the owner of anything) and to a one-task store read
by a non-owner (the AccessDenied half). -/
theorem C3_existence_precedes_ownership_witness :
    (get_ocr_status (fun _ => .pending) "mallory" "missing"
        (Store.mk [] [])).2 = StatusResp.notFound ∧
    ∃ t, lookupTask
        (Store.mk [("t1", { task_id := "t1", status := "processing", user_id := "alice" })] [])
        "t1" = some t ∧ t.user_id ≠ "mallory" :=
  ⟨((C3_existence_precedes_ownership (fun _ => .pending) (fun _ => .ok {}) "u" "o"
      (Sys.mk (Store.mk [] []) []) "mallory" "missing" "f" none).1 (by decide)).1,
   (C3_existence_precedes_ownership (fun _ => .pending) (fun _ => .ok {}) "u" "o"
      (Sys.mk (Store.mk [("t1", { task_id := "t1", status := "processing", user_id := "alice" })] []) [])
      "mallory" "t1" "f" none).2
     (Or.inr (Or.inr (Or.inr (Or.inr (by decide)))))⟩

/-- C4: on a completed task with a stored result of N page texts, the
all-pages extract call returns exactly N entries, the j-th (0-based)
stamped with page_number j+1; a page whose extraction raises contributes
the entry with all six fields empty and the error marker, and every
other page still carries its extracted fields. -/
theorem C4_all_pages_extraction (extractor : String → Except String InvoiceFields)
    (s : Store) (requester tid : String) (t : TaskRec) (rd : ResultData)
    (hT : lookupTask s tid = some t) (hOwn : t.user_id = requester)
    (hSt : t.status = "completed") (hR : lookupResult s tid = some rd) :
    (extract_invoice_data extractor requester tid none s).2 =
      .ok (extractPagesFrom extractor 1 rd.detected_texts) rd.detected_texts.length ∧
    (extractPagesFrom extractor 1 rd.detected_texts).length = rd.detected_texts.length ∧
    (∀ j, j < rd.detected_texts.length →
      ((extractPagesFrom extractor 1 rd.detected_texts).getD j
          { fields := emptyInvoiceFields, page_number := 0, error := none }).page_number = j + 1 ∧
      (∀ f, extractor (rd.detected_texts.getD j "") = .ok f →
        (extractPagesFrom extractor 1 rd.detected_texts).getD j
            { fields := emptyInvoiceFields, page_number := 0, error := none } =
          { fields := f, page_number := j + 1, error := none }) ∧
      (∀ e, extractor (rd.detected_texts.getD j "") = .error e →
        (extractPagesFrom extractor 1 rd.detected_texts).getD j
            { fields := emptyInvoiceFields, page_number := 0, error := none } =
          { fields := emptyInvoiceFields, page_number := j + 1, error := some e })) := by
  refine ⟨?_, extractPagesFrom_length extractor 1 rd.detected_texts, ?_⟩
  · unfold extract_invoice_data
    rw [hT]
    simp [hOwn, hSt, hR]
  · intro j hj
    have hget := extractPagesFrom_getD extractor rd.detected_texts
      { fields := emptyInvoiceFields, page_number := 0, error := none } 1 j hj
    refine ⟨?_, ?_, ?_⟩
    · rw [hget]
      cases hx : extractor (rd.detected_texts.getD j "") <;> simp [Nat.add_comm]
    · intro f hf
      rw [hget, hf]
      simp [Nat.add_comm]
    · intro e he
      rw [hget, he]
      simp [Nat.add_comm]

/-- C4 (witness): a two-page completed task where page 1 extracts and
page 2 raises; the first entry keeps its fields, the second is the
empty-field error entry, both correctly numbered. -/
theorem C4_all_pages_extraction_witness :
    (extract_invoice_data
        (fun txt => if txt = "page one" then .ok { invoice_number := "INV-1" } else .error "boom")
        "alice" "t1" none
        (Store.mk [("t1", { task_id := "t1", status := "completed", user_id := "alice" })]
          [("t1", { detected_texts := ["page one", "page two"],
                    all_text := "page one\npage two", pages_processed := 2 })])).2 =
      .ok (extractPagesFrom
            (fun txt => if txt = "page one" then .ok { invoice_number := "INV-1" } else .error "boom")
            1 ["page one", "page two"]) 2 ∧
    extractPagesFrom
        (fun txt => if txt = "page one" then .ok { invoice_number := "INV-1" } else .error "boom")
        1 ["page one", "page two"] =
      [{ fields := { invoice_number := "INV-1" }, page_number := 1, error := none },
       { fields := emptyInvoiceFields, page_number := 2, error := some "boom" }] :=
  ⟨(C4_all_pages_extraction
      (fun txt => if txt = "page one" then .ok { invoice_number := "INV-1" } else .error "boom")
      (Store.mk [("t1", { task_id := "t1", status := "completed", user_id := "alice" })]
        [("t1", { detected_texts := ["page one", "page two"],
                  all_text := "page one\npage two", pages_processed := 2 })])
      "alice" "t1"
      { task_id := "t1", status := "completed", user_id := "alice" }
      { detected_texts := ["page one", "page two"],
        all_text := "page one\npage two", pages_processed := 2 }
      (by decide) rfl rfl (by decide)).1,
   by decide⟩

/-- C5: the recognition stage yields exactly one text entry per converted
image, in image order (an empty page yields the empty string, not an
omitted entry), and the worker stores a Result whose pages_processed
equals the number of converted images and whose all_text is the newline
join of the per-page texts in page order. -/
theorem C5_result_matches_convert (engine : String → List OcrLine)
    (path dir : String) (pages : Nat) (s0 : Store) (tid : String) :
    (process_ocr engine path dir pages).length = (convert_to_png path dir pages).length ∧
    (∀ i, i < (convert_to_png path dir pages).length →
      (process_ocr engine path dir pages).getD i "" =
        pageText (engine ((convert_to_png path dir pages).getD i ""))) ∧
    pageText [] = "" ∧
    lookupResult (applyOps s0 (worker_ops engine tid path dir pages)) tid =
      some { detected_texts := process_ocr engine path dir pages,
             all_text := String.intercalate "\n" (process_ocr engine path dir pages),
             pages_processed := (convert_to_png path dir pages).length } ∧
    statusOf (applyOps s0 (worker_ops engine tid path dir pages)) tid = some "completed" := by
  have hkey : process_ocr engine path dir pages =
      (convert_to_png path dir pages).map (fun png => pageText (engine png)) := by
    unfold process_ocr run_paddle_ocr
    by_cases h : (convert_to_png path dir pages).isEmpty
    · rw [if_pos h, List.isEmpty_iff.mp h]
      rfl
    · rw [if_neg h]
  have hlen : (process_ocr engine path dir pages).length =
      (convert_to_png path dir pages).length := by
    rw [hkey]; simp
  refine ⟨hlen, ?_, rfl, ?_, ?_⟩
  · intro i hi
    rw [hkey]
    exact map_getD_lt _ _ i hi "" ""
  · show lookupResult
      (applyOp (applyOp s0 (.hsetStatus tid "completed"))
        (.setResult tid (mkResultData (process_ocr engine path dir pages)))) tid = _
    rw [lookupResult_setResult_self]
    unfold mkResultData
    rw [hlen]
  · show statusOf
      (applyOp (applyOp s0 (.hsetStatus tid "completed"))
        (.setResult tid (mkResultData (process_ocr engine path dir pages)))) tid = _
    rw [statusOf_setResult, statusOf_hsetStatus]

/-- C5 (witness): a two-page PDF where the engine finds one line on the
first page and nothing on the second; the theorem applied there gives
the per-page order property at page index 0. -/
theorem C5_result_matches_convert_witness :
    0 < (convert_to_png "scan.pdf" "out" 2).length ∧
    (process_ocr
        (fun p => if p = "out/scan_page_1.png" then [{ text := "hello", conf := 99 }] else [])
        "scan.pdf" "out" 2).getD 0 "" =
      pageText
        ((fun p => if p = "out/scan_page_1.png" then [{ text := "hello", conf := 99 }]
                   else ([] : List OcrLine))
          ((convert_to_png "scan.pdf" "out" 2).getD 0 "")) :=
  ⟨by decide,
   (C5_result_matches_convert
      (fun p => if p = "out/scan_page_1.png" then [{ text := "hello", conf := 99 }] else [])
      "scan.pdf" "out" 2 (Store.mk [] []) "t1").2.1 0 (by decide)⟩

/-- C6: the invoice-extract endpoint never mutates the task store:
whatever branch it takes (missing task, foreign owner, not completed,
missing result, out-of-range page, extraction failure or success), the
store it returns is the store it was given. -/
theorem C6_extract_preserves_store (extractor : String → Except String InvoiceFields)
    (requester tid : String) (pn : Option Nat) (s : Store) :
    (extract_invoice_data extractor requester tid pn s).1 = s := by
  unfold extract_invoice_data
  repeat' (first | rfl | split | dsimp only)

/-- C9: when an explicit in-range page_number is given and extraction of
that single page raises, the whole request fails with the
extraction-failed error and no page entry is produced — unlike the
all-pages path of C4. -/
theorem C9_single_page_failure_aborts (extractor : String → Except String InvoiceFields)
    (s : Store) (requester tid : String) (t : TaskRec) (rd : ResultData)
    (p : Nat) (e : String)
    (hT : lookupTask s tid = some t) (hOwn : t.user_id = requester)
    (hSt : t.status = "completed") (hR : lookupResult s tid = some rd)
    (hp1 : 1 ≤ p) (hp2 : p ≤ rd.detected_texts.length)
    (hex : extractor (rd.detected_texts.getD (p - 1) "") = .error e) :
    (extract_invoice_data extractor requester tid (some p) s).2 =
      .extractionFailed ("Extraction failed: " ++ e) := by
  unfold extract_invoice_data
  rw [hT]
  have hp0 : ¬ p = 0 := by omega
  have hlt : ¬ rd.detected_texts.length < p := by omega
  simp [hOwn, hSt, hR, hp0, hlt]
  have hx : rd.detected_texts[p - 1]?.getD "" = rd.detected_texts.getD (p - 1) "" := by
    rw [List.getD_eq_getElem?_getD]
  rw [hx, hex]

/-- C9 (witness): the theorem applied to a concrete completed two-page
task whose second page raises on extraction. -/
theorem C9_single_page_failure_aborts_witness :
    (extract_invoice_data (fun _ => .error "backend down") "alice" "t1" (some 2)
        (Store.mk [("t1", { task_id := "t1", status := "completed", user_id := "alice" })]
          [("t1", { detected_texts := ["a", "b"], all_text := "a\nb",
                    pages_processed := 2 })])).2 =
      .extractionFailed ("Extraction failed: " ++ "backend down") :=
  C9_single_page_failure_aborts (fun _ => .error "backend down")
    (Store.mk [("t1", { task_id := "t1", status := "completed", user_id := "alice" })]
      [("t1", { detected_texts := ["a", "b"], all_text := "a\nb", pages_processed := 2 })])
    "alice" "t1"
    { task_id := "t1", status := "completed", user_id := "alice" }
    { detected_texts := ["a", "b"], all_text := "a\nb", pages_processed := 2 }
    2 "backend down" (by decide) rfl rfl (by decide) (by decide) (by decide) rfl

/-- C10: once validation passed, the submission endpoint always answers
202 with body status `processing`; on the branch where starting
background processing raised, the stored task status has already been
overwritten to `failed` with the explanatory error while the response
still says `processing`; without that error the stored status is
`processing`. -/
theorem C10_submission_always_processing (tid filename language requester created_at : String)
    (startErr : Option String) (s : Store) :
    (process_ocr_endpoint_post tid filename language requester created_at startErr s).2 =
      .accepted tid "processing" "OCR processing started" ∧
    (∀ e, startErr = some e →
      statusOf (process_ocr_endpoint_post tid filename language requester created_at
        startErr s).1 tid = some "failed" ∧
      errorOf (process_ocr_endpoint_post tid filename language requester created_at
        startErr s).1 tid = some ("Failed to start processing: " ++ e)) ∧
    (startErr = none →
      statusOf (process_ocr_endpoint_post tid filename language requester created_at
        startErr s).1 tid = some "processing") := by
  refine ⟨?_, ?_, ?_⟩
  · unfold process_ocr_endpoint_post
    cases startErr <;> rfl
  · intro e he
    subst he
    unfold process_ocr_endpoint_post
    constructor
    · exact statusOf_hsetFail _ tid _
    · exact errorOf_hsetFail _ tid _
  · intro he
    subst he
    unfold process_ocr_endpoint_post
    exact statusOf_hsetNew_self s tid _

/-- C10 (witness): a submission whose background start raised `boom`:
the response still reports `processing` while the stored status is
`failed`. -/
theorem C10_submission_always_processing_witness :
    (process_ocr_endpoint_post "t1" "f.pdf" "en" "alice" "now" (some "boom")
        (Store.mk [] [])).2 = .accepted "t1" "processing" "OCR processing started" ∧
    statusOf (process_ocr_endpoint_post "t1" "f.pdf" "en" "alice" "now" (some "boom")
        (Store.mk [] [])).1 "t1" = some "failed" :=
  ⟨(C10_submission_always_processing "t1" "f.pdf" "en" "alice" "now" (some "boom")
      (Store.mk [] [])).1,
   ((C10_submission_always_processing "t1" "f.pdf" "en" "alice" "now" (some "boom")
      (Store.mk [] [])).2.1 "boom" rfl).1⟩

/-- C8: deleting an owned existing task removes the task hash, the
result blob, the uploaded file, and the three derived `.txt`/`.json`/
`.png` siblings reconstructed from the stored filename, and a
subsequent status read of that id answers NotFound. -/
theorem C8_delete_removes_everything (celery : String → JobState)
    (uploadDir outputDir : String) (sys : Sys) (requester tid : String) (t : TaskRec)
    (hT : lookupTask sys.store tid = some t) (hOwn : t.user_id = requester)
    (hF : t.filename ≠ "") :
    (delete_task uploadDir outputDir requester tid sys).2 = .okDeleted ∧
    lookupTask (delete_task uploadDir outputDir requester tid sys).1.store tid = none ∧
    lookupResult (delete_task uploadDir outputDir requester tid sys).1.store tid = none ∧
    (get_ocr_status celery requester tid
      (delete_task uploadDir outputDir requester tid sys).1.store).2 = .notFound ∧
    joinPath uploadDir t.filename ∉ (delete_task uploadDir outputDir requester tid sys).1.files ∧
    (∀ ext ∈ [".txt", ".json", ".png"],
      joinPath outputDir (stemOf t.filename ++ ext) ∉
        (delete_task uploadDir outputDir requester tid sys).1.files) := by
  have hd : delete_task uploadDir outputDir requester tid sys =
      ({ store := applyOp (applyOp sys.store (.delTask tid)) (.delResult tid),
         files :=
           removeFile
             (removeFile
               (removeFile (removeFile sys.files (joinPath uploadDir t.filename))
                 (joinPath outputDir (stemOf t.filename ++ ".txt")))
               (joinPath outputDir (stemOf t.filename ++ ".json")))
             (joinPath outputDir (stemOf t.filename ++ ".png")) }, .okDeleted) := by
    unfold delete_task
    rw [hT]
    dsimp only
    have ho : ¬ t.user_id ≠ requester := by simp [hOwn]
    rw [if_neg ho, if_pos hF]
    rfl
  rw [hd]
  refine ⟨rfl, ?_, ?_, ?_, ?_, ?_⟩
  · rw [lookupTask_delResult]
    exact lookupTask_delTask_self sys.store tid
  · exact lookupResult_delResult_self (applyOp sys.store (.delTask tid)) tid
  · apply get_ocr_status_snd_notFound
    rw [lookupTask_delResult]
    exact lookupTask_delTask_self sys.store tid
  · intro hmem
    exact not_mem_removeFile_self _ _
      (mem_of_mem_removeFile _ _ _ (mem_of_mem_removeFile _ _ _ (mem_of_mem_removeFile _ _ _ hmem)))
  · intro ext hext
    simp only [List.mem_cons, List.not_mem_nil, or_false] at hext
    rcases hext with rfl | rfl | rfl
    · intro hmem
      exact not_mem_removeFile_self _ _
        (mem_of_mem_removeFile _ _ _ (mem_of_mem_removeFile _ _ _ hmem))
    · intro hmem
      exact not_mem_removeFile_self _ _ (mem_of_mem_removeFile _ _ _ hmem)
    · intro hmem
      exact not_mem_removeFile_self _ _ hmem

/-- C8 (witness): the theorem applied to a concrete one-task system
whose upload and three derived files are on disk. -/
theorem C8_delete_removes_everything_witness :
    lookupTask
      (delete_task "up" "out" "alice" "t1"
        (Sys.mk
          (Store.mk
            [("t1", { task_id := "t1", status := "completed", user_id := "alice",
                      filename := "inv_1_ab.pdf" })]
            [("t1", { detected_texts := ["x"], all_text := "x", pages_processed := 1 })])
          ["up/inv_1_ab.pdf", "out/inv_1_ab.txt", "out/inv_1_ab.json", "out/inv_1_ab.png"])).1.store
      "t1" = none ∧
    joinPath "up" "inv_1_ab.pdf" ∉
      (delete_task "up" "out" "alice" "t1"
        (Sys.mk
          (Store.mk
            [("t1", { task_id := "t1", status := "completed", user_id := "alice",
                      filename := "inv_1_ab.pdf" })]
            [("t1", { detected_texts := ["x"], all_text := "x", pages_processed := 1 })])
          ["up/inv_1_ab.pdf", "out/inv_1_ab.txt", "out/inv_1_ab.json", "out/inv_1_ab.png"])).1.files :=
  ⟨(C8_delete_removes_everything (fun _ => .pending) "up" "out"
      (Sys.mk
        (Store.mk
          [("t1", { task_id := "t1", status := "completed", user_id := "alice",
                    filename := "inv_1_ab.pdf" })]
          [("t1", { detected_texts := ["x"], all_text := "x", pages_processed := 1 })])
        ["up/inv_1_ab.pdf", "out/inv_1_ab.txt", "out/inv_1_ab.json", "out/inv_1_ab.png"])
      "alice" "t1"
      { task_id := "t1", status := "completed", user_id := "alice", filename := "inv_1_ab.pdf" }
      (by decide) rfl (by decide)).2.1,
   (C8_delete_removes_everything (fun _ => .pending) "up" "out"
      (Sys.mk
        (Store.mk
          [("t1", { task_id := "t1", status := "completed", user_id := "alice",
                    filename := "inv_1_ab.pdf" })]
          [("t1", { detected_texts := ["x"], all_text := "x", pages_processed := 1 })])
        ["up/inv_1_ab.pdf", "out/inv_1_ab.txt", "out/inv_1_ab.json", "out/inv_1_ab.png"])
      "alice" "t1"
      { task_id := "t1", status := "completed", user_id := "alice", filename := "inv_1_ab.pdf" }
      (by decide) rfl (by decide)).2.2.2.2.1⟩

theorem parseData_eq_braceSlice (content : String) (h : jsonParseObj content = none) :
    parseDataFromContent content = (((braceSlice content).bind jsonParseObj).getD []) := by
  unfold parseDataFromContent braceSlice pyFind pyRfind
  rw [h]
  dsimp only
  cases hf : content.data.findIdx? (· = '{') with
  | none =>
    simp
  | some i =>
    cases hl : lastIdxOf '}' content.data with
    | none =>
      simp
    | some j =>
      by_cases hij : i < j
      · have hc : ((i : Int) ≠ -1 ∧ (j : Int) ≠ -1 ∧ (i : Int) < (j : Int)) := by
          refine ⟨by omega, by omega, by exact_mod_cast hij⟩
        dsimp only
        have hti : ((i : Int)).toNat = i := Int.toNat_natCast i
        have htj : ((j : Int)).toNat = j := Int.toNat_natCast j
        rw [hti, htj, if_pos hc, if_pos hij]
        cases hp : jsonParseObj
            (String.mk ((content.data.drop i).take (j + 1 - i))) <;> simp [hp]
      · have hc : ¬ ((i : Int) ≠ -1 ∧ (j : Int) ≠ -1 ∧ (i : Int) < (j : Int)) := by
          intro hcon
          exact hij (by exact_mod_cast hcon.2.2)
        dsimp only
        rw [if_neg hc, if_neg hij]
        simp

/-- C7 (counterexample): on a non-JSON content whose first balanced
`\x7b...\x7d` substring is a well-formed object but whose
first-brace-to-last-brace slice is not, the extractor returns empty
fields while the claimed first-balanced salvage would return the field —
the code does not salvage the first balanced substring. -/
theorem C7_salvage_not_first_balanced :
    jsonParseObj "x\x7b\"invoice_number\": \"42\"\x7d junk\x7d" = none ∧
    firstBalancedSubstring "x\x7b\"invoice_number\": \"42\"\x7d junk\x7d" =
      some "\x7b\"invoice_number\": \"42\"\x7d" ∧
    (spec_salvage_fields "x\x7b\"invoice_number\": \"42\"\x7d junk\x7d").invoice_number = "42" ∧
    (extract_with_azure_openai_content
      "x\x7b\"invoice_number\": \"42\"\x7d junk\x7d").invoice_number = "" ∧
    extract_with_azure_openai_content "x\x7b\"invoice_number\": \"42\"\x7d junk\x7d" ≠
      spec_salvage_fields "x\x7b\"invoice_number\": \"42\"\x7d junk\x7d" :=
  ⟨by decide, by decide, by decide, by decide, by decide⟩

/-- C7 (amended): on content that is not valid JSON the extractor
salvages the slice from the first opening brace through the last closing
brace and parses that; when that salvage fails too (or no such slice
exists) every field is the empty string, and no exception escapes —
the function is total. -/
theorem C7_salvage_first_to_last_brace (content : String)
    (h : jsonParseObj content = none) :
    extract_with_azure_openai_content content =
      fieldsFromData (((braceSlice content).bind jsonParseObj).getD []) ∧
    fieldsFromData [] = emptyInvoiceFields := by
  refine ⟨?_, rfl⟩
  unfold extract_with_azure_openai_content
  rw [parseData_eq_braceSlice content h]

/-- C7 (witness): the amended theorem applied to a concrete non-JSON
content whose brace slice does parse. -/
theorem C7_salvage_first_to_last_brace_witness :
    jsonParseObj "noise \x7b\"total_amount\": \"7\"\x7d" = none ∧
    extract_with_azure_openai_content "noise \x7b\"total_amount\": \"7\"\x7d" =
      fieldsFromData
        (((braceSlice "noise \x7b\"total_amount\": \"7\"\x7d").bind jsonParseObj).getD []) :=
  ⟨by decide,
   (C7_salvage_first_to_last_brace "noise \x7b\"total_amount\": \"7\"\x7d" (by decide)).1⟩
